import Mathlib

/-!
Verification of the paperclip retrieval layer against its specification.

Strings are modelled as lists of characters (`Str`).  Each definition below is a
direct translation of a Python function from the repository; the doc comment of
a definition names its source.  HTTP calls are modelled by passing the upstream
outcome as an explicit argument.
-/

set_option maxRecDepth 40000

namespace Paperclip

/-- Python strings, modelled as lists of characters. -/
abbrev Str := List Char

/-- The double-quote character. -/
def dq : Char := Char.ofNat 34

/-- The apostrophe character. -/
def apos : Char := Char.ofNat 39

/-- Whitespace as recognised by Python's `\s` regex class and `str.strip` on
text strings (ASCII whitespace, the C1 separators, NEL, NBSP and the Unicode
space separators). -/
def isPyWS (c : Char) : Bool :=
  let n := c.toNat
  (9 ≤ n && n ≤ 13) || n == 32 || (28 ≤ n && n ≤ 31) || n == 133 || n == 160 ||
  n == 5760 || (8192 ≤ n && n ≤ 8202) || n == 8232 || n == 8233 || n == 8239 ||
  n == 8287 || n == 12288

/-- Python `text.replace(a, rep)` for a single-character pattern `a`. -/
def replaceCharWith (a : Char) (rep : Str) : Str → Str
  | [] => []
  | c :: t => (if c = a then rep else [c]) ++ replaceCharWith a rep t

/-- Does `pat` occur at the head of `s`? -/
def leadMatch : Str → Str → Bool
  | [], _ => true
  | _ :: _, [] => false
  | p :: ps, c :: cs => if p = c then leadMatch ps cs else false

/-- Left-to-right non-overlapping replacement of `pat` by `rep`, with explicit
fuel (one unit per examined position suffices). -/
def replaceSeqAux (pat rep : Str) : Nat → Str → Str
  | _, [] => []
  | 0, s => s
  | fuel + 1, c :: t =>
    if leadMatch pat (c :: t) then
      rep ++ replaceSeqAux pat rep fuel (List.drop pat.length (c :: t))
    else
      c :: replaceSeqAux pat rep fuel t

/-- Python `s.replace(pat, rep)` for a non-empty multi-character pattern. -/
def replaceSeq (pat rep s : Str) : Str := replaceSeqAux pat rep s.length s

/-- Squeeze runs of adjacent plain spaces down to a single space. -/
def dedupSpaces : Str → Str
  | [] => []
  | [c] => [c]
  | a :: b :: t =>
    if a = ' ' ∧ b = ' ' then dedupSpaces (b :: t) else a :: dedupSpaces (b :: t)

/-- Python `re.sub(r"\s+", " ", s)`: every maximal whitespace run becomes one
plain space. -/
def normWS (s : Str) : Str :=
  dedupSpaces (s.map fun c => if isPyWS c then ' ' else c)

/-- Python `s.strip()`. -/
def stripWS (s : Str) : Str :=
  List.rdropWhile (fun c => isPyWS c) (List.dropWhile (fun c => isPyWS c) s)

/-- Python slicing `s[:k]` for an integer bound `k` (negative bounds count from
the end). -/
def pyTake (k : Int) (s : Str) : Str :=
  if k < 0 then s.take (s.length - k.natAbs) else s.take k.toNat

/-- The literal pattern produced by the mangled quote-normalisation line 26 of
`utils/sanitize_api_queries.py`: the line tokenises as two self-replacements of
the double quote followed by one replacement of this fifteen-character string
by an apostrophe. -/
def quoteArtifact : Str :=
  [',', ' ', dq, apos, dq, ')', '.', 'r', 'e', 'p', 'l', 'a', 'c', 'e', '(']

/-- The literal `&nbsp;` entity. -/
def nbspEntity : Str := ['&', 'n', 'b', 's', 'p', ';']

/-- The `problematic_chars` blacklist of `utils/sanitize_api_queries.py`
line 44. -/
def problematic_chars : Str :=
  ['<', '>', Char.ofNat 123, Char.ofNat 125, '|', Char.ofNat 92, '^',
   Char.ofNat 96, '[', ']']

/-- The loop over `problematic_chars` (lines 45-46): successive removal of each
blacklisted character. -/
def removeChars (chars : Str) (s : Str) : Str :=
  chars.foldl (fun acc c => replaceCharWith c [] acc) s

/-- No two adjacent plain spaces. -/
def NoAdjSpaces (s : Str) : Prop :=
  List.Chain' (fun a b => ¬(a = ' ' ∧ b = ' ')) s

/-- Line 26 of `sanitize_api_queries`: two self-replacements of the double
quote, then the replacement of the fifteen-character artifact by an
apostrophe. -/
def quoteStage (t : Str) : Str :=
  replaceSeq quoteArtifact [apos] (replaceCharWith dq [dq] (replaceCharWith dq [dq] t))

/-- Lines 29-31 of `sanitize_api_queries`: `&nbsp;`, the non-breaking space
and the line break and tab characters all become plain spaces. -/
def spaceStage (t : Str) : Str :=
  replaceCharWith (Char.ofNat 9) [' ']
    (replaceCharWith (Char.ofNat 13) [' ']
      (replaceCharWith (Char.ofNat 10) [' ']
        (replaceCharWith (Char.ofNat 160) [' ']
          (replaceSeq nbspEntity [' '] t))))

/-- Whitespace-run collapse followed by strip (lines 34-37 and again
line 59 of `sanitize_api_queries`). -/
def collapseStage (t : Str) : Str := stripWS (normWS t)

/-- Lines 40-41 of `sanitize_api_queries`: `cleaned[:max_length-3] + "..."`
when the cleaned string is longer than `max_length`. -/
def truncStage (max_length : Int) (t : Str) : Str :=
  if (t.length : Int) > max_length then pyTake (max_length - 3) t ++ ['.', '.', '.']
  else t

/-- Lines 44-56 of `sanitize_api_queries`: blacklist removal, colon and
semicolon replacement, punctuation removal, in source order. -/
def punctStage (t : Str) : Str :=
  replaceCharWith '%' []
    (replaceCharWith '#' []
      (replaceCharWith '!' []
        (replaceCharWith '?' []
          (replaceCharWith ';' [',']
            (replaceCharWith ':' [' ', '-']
              (removeChars problematic_chars t))))))

/-- `sanitize_api_queries` from `utils/sanitize_api_queries.py`: the stages
above composed in source order. -/
def sanitize_api_queries (text : Str) (max_length : Int) : Str :=
  if text = [] then text
  else
    collapseStage (punctStage (truncStage max_length
      (collapseStage (spaceStage (quoteStage text)))))

/-- Routing targets of the dispatcher identifier classification. -/
inductive Route
  | openalex
  | arxiv
  | osf
deriving DecidableEq

/-- The Unicode decimal digits (general category Nd, equivalently
Numeric_Type=Decimal): the characters matched by Python's regex `\\d` on text
strings.  Ranges transcribed from Unicode 15.0. -/
def isNdDigit (c : Char) : Bool :=
  decide (48 ≤ c.toNat ∧ c.toNat ≤ 57) ||
  decide (1632 ≤ c.toNat ∧ c.toNat ≤ 1641) ||
  decide (1776 ≤ c.toNat ∧ c.toNat ≤ 1785) ||
  decide (1984 ≤ c.toNat ∧ c.toNat ≤ 1993) ||
  decide (2406 ≤ c.toNat ∧ c.toNat ≤ 2415) ||
  decide (2534 ≤ c.toNat ∧ c.toNat ≤ 2543) ||
  decide (2662 ≤ c.toNat ∧ c.toNat ≤ 2671) ||
  decide (2790 ≤ c.toNat ∧ c.toNat ≤ 2799) ||
  decide (2918 ≤ c.toNat ∧ c.toNat ≤ 2927) ||
  decide (3046 ≤ c.toNat ∧ c.toNat ≤ 3055) ||
  decide (3174 ≤ c.toNat ∧ c.toNat ≤ 3183) ||
  decide (3302 ≤ c.toNat ∧ c.toNat ≤ 3311) ||
  decide (3430 ≤ c.toNat ∧ c.toNat ≤ 3439) ||
  decide (3558 ≤ c.toNat ∧ c.toNat ≤ 3567) ||
  decide (3664 ≤ c.toNat ∧ c.toNat ≤ 3673) ||
  decide (3792 ≤ c.toNat ∧ c.toNat ≤ 3801) ||
  decide (3872 ≤ c.toNat ∧ c.toNat ≤ 3881) ||
  decide (4160 ≤ c.toNat ∧ c.toNat ≤ 4169) ||
  decide (4240 ≤ c.toNat ∧ c.toNat ≤ 4249) ||
  decide (6112 ≤ c.toNat ∧ c.toNat ≤ 6121) ||
  decide (6160 ≤ c.toNat ∧ c.toNat ≤ 6169) ||
  decide (6470 ≤ c.toNat ∧ c.toNat ≤ 6479) ||
  decide (6608 ≤ c.toNat ∧ c.toNat ≤ 6617) ||
  decide (6784 ≤ c.toNat ∧ c.toNat ≤ 6793) ||
  decide (6800 ≤ c.toNat ∧ c.toNat ≤ 6809) ||
  decide (6992 ≤ c.toNat ∧ c.toNat ≤ 7001) ||
  decide (7088 ≤ c.toNat ∧ c.toNat ≤ 7097) ||
  decide (7232 ≤ c.toNat ∧ c.toNat ≤ 7241) ||
  decide (7248 ≤ c.toNat ∧ c.toNat ≤ 7257) ||
  decide (42528 ≤ c.toNat ∧ c.toNat ≤ 42537) ||
  decide (43216 ≤ c.toNat ∧ c.toNat ≤ 43225) ||
  decide (43264 ≤ c.toNat ∧ c.toNat ≤ 43273) ||
  decide (43472 ≤ c.toNat ∧ c.toNat ≤ 43481) ||
  decide (43504 ≤ c.toNat ∧ c.toNat ≤ 43513) ||
  decide (43600 ≤ c.toNat ∧ c.toNat ≤ 43609) ||
  decide (44016 ≤ c.toNat ∧ c.toNat ≤ 44025) ||
  decide (65296 ≤ c.toNat ∧ c.toNat ≤ 65305) ||
  decide (66720 ≤ c.toNat ∧ c.toNat ≤ 66729) ||
  decide (68912 ≤ c.toNat ∧ c.toNat ≤ 68921) ||
  decide (69734 ≤ c.toNat ∧ c.toNat ≤ 69743) ||
  decide (69872 ≤ c.toNat ∧ c.toNat ≤ 69881) ||
  decide (69942 ≤ c.toNat ∧ c.toNat ≤ 69951) ||
  decide (70096 ≤ c.toNat ∧ c.toNat ≤ 70105) ||
  decide (70384 ≤ c.toNat ∧ c.toNat ≤ 70393) ||
  decide (70736 ≤ c.toNat ∧ c.toNat ≤ 70745) ||
  decide (70864 ≤ c.toNat ∧ c.toNat ≤ 70873) ||
  decide (71248 ≤ c.toNat ∧ c.toNat ≤ 71257) ||
  decide (71360 ≤ c.toNat ∧ c.toNat ≤ 71369) ||
  decide (71472 ≤ c.toNat ∧ c.toNat ≤ 71481) ||
  decide (71904 ≤ c.toNat ∧ c.toNat ≤ 71913) ||
  decide (72016 ≤ c.toNat ∧ c.toNat ≤ 72025) ||
  decide (72784 ≤ c.toNat ∧ c.toNat ≤ 72793) ||
  decide (73040 ≤ c.toNat ∧ c.toNat ≤ 73049) ||
  decide (73120 ≤ c.toNat ∧ c.toNat ≤ 73129) ||
  decide (73552 ≤ c.toNat ∧ c.toNat ≤ 73561) ||
  decide (92768 ≤ c.toNat ∧ c.toNat ≤ 92777) ||
  decide (92864 ≤ c.toNat ∧ c.toNat ≤ 92873) ||
  decide (93008 ≤ c.toNat ∧ c.toNat ≤ 93017) ||
  decide (120782 ≤ c.toNat ∧ c.toNat ≤ 120831) ||
  decide (123200 ≤ c.toNat ∧ c.toNat ≤ 123209) ||
  decide (123632 ≤ c.toNat ∧ c.toNat ≤ 123641) ||
  decide (124144 ≤ c.toNat ∧ c.toNat ≤ 124153) ||
  decide (125264 ≤ c.toNat ∧ c.toNat ≤ 125273) ||
  decide (130032 ≤ c.toNat ∧ c.toNat ≤ 130041)

/-- The characters with Numeric_Type=Digit: non-decimal digits such as the
superscript `\u00b2`, accepted by Python `str.isdigit` but not matched by
`\\d`.  Ranges transcribed from Unicode 15.0. -/
def isCompatDigit (c : Char) : Bool :=
  decide (178 ≤ c.toNat ∧ c.toNat ≤ 179) ||
  decide (c.toNat = 185) ||
  decide (4969 ≤ c.toNat ∧ c.toNat ≤ 4977) ||
  decide (c.toNat = 6618) ||
  decide (c.toNat = 8304) ||
  decide (8308 ≤ c.toNat ∧ c.toNat ≤ 8313) ||
  decide (8320 ≤ c.toNat ∧ c.toNat ≤ 8329) ||
  decide (9312 ≤ c.toNat ∧ c.toNat ≤ 9320) ||
  decide (9332 ≤ c.toNat ∧ c.toNat ≤ 9340) ||
  decide (9352 ≤ c.toNat ∧ c.toNat ≤ 9360) ||
  decide (c.toNat = 9450) ||
  decide (9461 ≤ c.toNat ∧ c.toNat ≤ 9469) ||
  decide (c.toNat = 9471) ||
  decide (10102 ≤ c.toNat ∧ c.toNat ≤ 10110) ||
  decide (10112 ≤ c.toNat ∧ c.toNat ≤ 10120) ||
  decide (10122 ≤ c.toNat ∧ c.toNat ≤ 10130) ||
  decide (68160 ≤ c.toNat ∧ c.toNat ≤ 68163) ||
  decide (69216 ≤ c.toNat ∧ c.toNat ≤ 69224) ||
  decide (69714 ≤ c.toNat ∧ c.toNat ≤ 69722) ||
  decide (127232 ≤ c.toNat ∧ c.toNat ≤ 127242)

/-- Python `str.isdigit` on one character: Numeric_Type is Decimal or
Digit. -/
def pyIsDigit (c : Char) : Bool := isNdDigit c || isCompatDigit c

/-- `paper_id.startswith("W") and paper_id[1:].isdigit()` from `server.py`. -/
def isOpenAlexIdShape (s : Str) : Bool :=
  match s with
  | [] => false
  | c :: rest => decide (c = 'W') && !rest.isEmpty && rest.all (fun c => pyIsDigit c)

/-- `"." in paper_id and ("v" in paper_id or len(paper_id.split(".")[0]) == 4)`
from `server.py`. -/
def isArxivIdShape (s : Str) : Bool :=
  decide ('.' ∈ s) && (decide ('v' ∈ s) || (s.takeWhile (fun c => c ≠ '.')).length == 4)

/-- The identifier classification shared by `get_paper_by_id` and
`get_paper_metadata` in `server.py`. -/
def classify (s : Str) : Route :=
  if isOpenAlexIdShape s then .openalex
  else if isArxivIdShape s then .arxiv
  else .osf

/-- The spec's wording: the identifier matches `^W\d+$`, where `\d` is the
Unicode decimal-digit category Nd (as in Python's `re` on text strings). -/
def matchesWDigits (s : Str) : Prop :=
  ∃ ds, s = 'W' :: ds ∧ ds ≠ [] ∧ ∀ c ∈ ds, isNdDigit c

/-- The code's shape test as a predicate: starts with `W` and the remainder
is a non-empty string of `str.isdigit`-accepted characters. -/
def matchesWPyDigits (s : Str) : Prop :=
  ∃ ds, s = 'W' :: ds ∧ ds ≠ [] ∧ ∀ c ∈ ds, pyIsDigit c

/-- The spec's wording: contains a `.` and either contains `v` or the segment
before the first `.` has length 4. -/
def specArxivShape (s : Str) : Prop :=
  '.' ∈ s ∧ ('v' ∈ s ∨ (s.takeWhile (fun c => c ≠ '.')).length = 4)

/-- Python truthiness of an optional string argument (`None` and `""` are
falsy). -/
def truthy : Option Str → Bool
  | none => false
  | some s => !s.isEmpty

/-- One conditional `search_parts.append(...)` of `fetch_arxiv_papers`. -/
def optQueryPart (pre : Str) (maxLen : Int) (field : Option Str) : List Str :=
  match field with
  | some s => if s.isEmpty then [] else [pre ++ sanitize_api_queries s maxLen]
  | none => []

/-- The `search_query` construction of `fetch_arxiv_papers`
(`core/arxiv.py` lines 32-48). -/
def arxiv_search_query (query category author title : Option Str) : Str :=
  let search_parts :=
    optQueryPart "all:".data 200 query ++ optQueryPart "cat:".data 50 category ++
      optQueryPart "au:".data 100 author ++ optQueryPart "ti:".data 200 title
  if search_parts.isEmpty then "all:*".data
  else List.intercalate " AND ".data search_parts

/-- The arXiv query constructor as the spec words it: up to four optional
fields with prefixes `all:`, `cat:`, `au:`, `ti:` and length limits
200/50/100/200, each provided value sanitized, joined with `" AND "`, with a
match-everything default. -/
def arxivQuerySpec (query category author title : Option Str) : Str :=
  let fields : List (Str × Int × Option Str) :=
    [("all:".data, 200, query), ("cat:".data, 50, category),
     ("au:".data, 100, author), ("ti:".data, 200, title)]
  let parts := fields.filterMap fun f =>
    match f.2.2 with
    | some v => if v.isEmpty then none else some (f.1 ++ sanitize_api_queries v f.2.1)
    | none => none
  if parts.isEmpty then "all:*".data else List.intercalate " AND ".data parts

/-- The `search` and `filter` query parameters built by
`fetch_openalex_papers`. -/
structure OpenAlexParams where
  search : Option Str
  filter : Option Str
deriving DecidableEq

/-- The query/filter construction of `fetch_openalex_papers`
(`core/openalex.py` lines 39-68), translated branch by branch in source
order. -/
def fetch_openalex_filters (query author title publisher institution concepts
    date_published_gte : Option Str) : OpenAlexParams :=
  let search1 : Option Str :=
    if truthy query then some (sanitize_api_queries (query.getD []) 500) else none
  let f1 : Option Str :=
    if truthy author then
      some ("authors.author_name.search:".data ++
        sanitize_api_queries (author.getD []) 200)
    else none
  let f2 : Option Str :=
    if truthy title then
      match f1 with
      | some v => some (v ++ [','] ++ sanitize_api_queries (title.getD []) 500)
      | none => some ("title.search:".data ++ sanitize_api_queries (title.getD []) 500)
    else f1
  let f3 : Option Str :=
    if truthy publisher then
      match f2 with
      | some v => some (v ++ ",publisher.search:".data ++
          sanitize_api_queries (publisher.getD []) 200)
      | none => some ("publisher.search:".data ++
          sanitize_api_queries (publisher.getD []) 200)
    else f2
  let f4 : Option Str :=
    if truthy institution then
      match f3 with
      | some v => some (v ++ ",institutions.institution_name.search:".data ++
          sanitize_api_queries (institution.getD []) 200)
      | none => some ("institutions.institution_name.search:".data ++
          sanitize_api_queries (institution.getD []) 200)
    else f3
  let f5 : Option Str :=
    if truthy concepts then
      match f4 with
      | some v => some (v ++ ",concepts.display_name.search:".data ++
          sanitize_api_queries (concepts.getD []) 200)
      | none => some ("concepts.display_name.search:".data ++
          sanitize_api_queries (concepts.getD []) 200)
    else f4
  let f6 : Option Str :=
    if truthy date_published_gte then
      match f5 with
      | some v => some (v ++ ",publication_date:>".data ++ date_published_gte.getD [])
      | none => some ("publication_date:>".data ++ date_published_gte.getD [])
    else f5
  ⟨search1, f6⟩

/-- A position value of the OpenAlex inverted index: a list of integer
positions, or any non-list Python value (skipped by the `isinstance` check). -/
inductive PosVal
  | ints (l : List Int)
  | malformed
deriving DecidableEq

/-- An inverted index in Python dict iteration (insertion) order. -/
abbrev InvIndex := List (Str × PosVal)

/-- The `word_positions` flattening loop of
`_reconstruct_abstract_from_inverted_index`: one `(position, word)` pair per
listed occurrence, entries with a non-list value skipped. -/
def flattenIndex : InvIndex → List (Int × Str)
  | [] => []
  | (w, .ints l) :: t => l.map (fun p => (p, w)) ++ flattenIndex t
  | (_, .malformed) :: t => flattenIndex t

/-- The comparison `key=lambda x: x[0]` used by `word_positions.sort`. -/
def posLe (a b : Int × Str) : Prop := a.1 ≤ b.1

instance : DecidableRel posLe := fun a b => inferInstanceAs (Decidable (a.1 ≤ b.1))

instance : IsTotal (Int × Str) posLe := ⟨fun a b => Int.le_total a.1 b.1⟩

instance : IsTrans (Int × Str) posLe := ⟨fun _ _ _ h1 h2 => le_trans h1 h2⟩

/-- `_reconstruct_abstract_from_inverted_index` (`core/openalex.py` lines
165-186): flatten, stable-sort ascending by position (Python `list.sort` is a
stable ascending sort, modelled by insertion sort), join with single
spaces. -/
def reconstruct_abstract (idx : InvIndex) : Str :=
  List.intercalate [' '] ((List.insertionSort posLe (flattenIndex idx)).map Prod.snd)

/-- Exception kinds of the Python code relevant to the dispatcher. -/
inductive PyExc
  | valueError
  | requestError
  | otherError
deriving DecidableEq

/-- The ids of `get_all_providers()`: the OSF provider ids plus the fixed
standalone ids (the case-insensitive re-sort does not change membership). -/
def get_all_provider_ids (osfIds : List Str) : List Str :=
  osfIds ++ ["arxiv".data, "openalex".data]

/-- The value results `search_preprints` can produce. -/
inductive SearchOut (α : Type)
  | providerNotFoundError
  | todoError
  | result (a : α)
  | pyNone
deriving DecidableEq

/-- `search_preprints` from `server.py` (lines 48-78).  The adapter calls are
modelled by their outcomes (`osfCall`, `arxivCall`, `openalexCall`); the filter
arguments are absorbed into those outcomes.  The two provider-list fetches are
modelled by one deterministic `osfIds` result. -/
def search_preprints (provider : Option Str) (osfIds : List Str)
    (osfCall arxivCall openalexCall : Except PyExc α) : Except PyExc (SearchOut α) :=
  if truthy provider ∧ provider.getD [] ∉ get_all_provider_ids osfIds then
    .ok .providerNotFoundError
  else if ¬ truthy provider then .ok .todoError
  else
    let p := provider.getD []
    if p = "osf".data ∨ p ∈ osfIds then osfCall.map .result
    else if p = "arxiv".data then arxivCall.map .result
    else if p = "openalex".data then openalexCall.map .result
    else .ok .pyNone

/-- `get_paper_metadata` from `server.py` (lines 134-145): no exception
handling, the classified fetch result is returned as is. -/
def get_paper_metadata (preprint_id : Str)
    (openalexFetch arxivFetch osfFetch : Except PyExc α) : Except PyExc α :=
  if isOpenAlexIdShape preprint_id then openalexFetch
  else if isArxivIdShape preprint_id then arxivFetch
  else osfFetch

/-- What an OSF single-preprint metadata fetch can return as a value: a
metadata dict, or an error-status dict (missing download URL). -/
inductive OsfMetaRes
  | metaDict
  | errorStatusDict
deriving DecidableEq

/-- `get_paper_by_id` from `server.py` (lines 85-120): the try body routes by
id shape; `download_paper_and_parse_to_markdown` never raises (it catches all
exceptions internally) and is modelled by the values `dlOA`, `dlArx`, `dlOsf`;
the `except ValueError` clause converts exactly that exception kind into the
error-value result `veDict`. -/
def get_paper_by_id (paper_id : Str) (oaFetch arxFetch : Except PyExc Unit)
    (osfFetch : Except PyExc OsfMetaRes) (dlOA dlArx dlOsf osfErrDict veDict : α) :
    Except PyExc α :=
  let body : Except PyExc α :=
    if isOpenAlexIdShape paper_id then oaFetch.map (fun _ => dlOA)
    else if isArxivIdShape paper_id then arxFetch.map (fun _ => dlArx)
    else
      match osfFetch with
      | .ok .errorStatusDict => .ok osfErrDict
      | .ok .metaDict => .ok dlOsf
      | .error e => .error e
  match body with
  | .error .valueError => .ok veDict
  | r => r

/-- Outcome of one upstream HTTP GET: a JSON body, an `HTTPError` raised by
`raise_for_status`, or another `RequestException`. -/
inductive HttpOutcome (J : Type)
  | ok (j : J)
  | httpError (status : Nat)
  | requestFailure
deriving DecidableEq

/-- An OSF JSON response body, modelled as an optional `meta` object of string
entries plus an opaque payload. -/
structure OsfJson where
  meta : Option (List (Str × Str))
  payload : Nat
deriving DecidableEq

/-- Requests issued by the OSF adapter: the standard filter endpoint with its
query parameters, or the trove endpoint. -/
inductive OsfReq
  | std (params : List (Str × Str))
  | trove
deriving DecidableEq

/-- Errors `fetch_osf_preprints` can raise. -/
inductive OsfErr
  | badRequest400
  | reraisedHttp (status : Nat)
  | requestFailed
deriving DecidableEq

/-- Python dict assignment `m[k] = v` on an association list. -/
def setKey (m : List (Str × Str)) (k v : Str) : List (Str × Str) :=
  match m with
  | [] => [(k, v)]
  | (k0, v0) :: t => if k0 = k then (k, v) :: t else (k0, v0) :: setKey t k v

/-- Association-list lookup, Python `m[k]`. -/
def lookupKey (m : List (Str × Str)) (k : Str) : Option Str :=
  match m with
  | [] => none
  | (k0, v0) :: t => if k0 = k then some v0 else lookupKey t k

/-- The `search_note` message of the OSF 400 fallback (`src/core/osf.py`
lines 76-78). -/
def osf_search_note (provider_id : Str) : Str :=
  "Original search failed (400 error), showing all results for provider ".data ++
    [apos] ++ provider_id ++ [apos] ++
    ". You may need to filter results manually.".data

/-- The `filters` dict built by `fetch_osf_preprints` (`src/core/osf.py`
lines 37-44), in insertion order. -/
def osf_filters (provider_id subjects date_published_gte : Option Str) :
    List (Str × Str) :=
  (if truthy provider_id then
    [("filter[provider]".data, sanitize_api_queries (provider_id.getD []) 50)]
   else []) ++
  (if truthy subjects then
    [("filter[subjects]".data, sanitize_api_queries (subjects.getD []) 100)]
   else []) ++
  (if truthy date_published_gte then
    [("filter[date_published][gte]".data, date_published_gte.getD [])]
   else [])

/-- `fetch_osf_preprints` from `src/core/osf.py` (lines 11-87).  HTTP is
modelled by the outcome of the first standard request (`resp1`), of the
optional retry (`resp2`), and of the trove branch (`troveOutcome`); the second
component of the result lists the requests issued in order.  Success bodies
are modelled as JSON objects whose optional `meta` member is an object. -/
def fetch_osf_preprints (provider_id subjects date_published_gte query : Option Str)
    (troveOutcome : Except OsfErr OsfJson) (resp1 resp2 : HttpOutcome OsfJson) :
    Except OsfErr OsfJson × List OsfReq :=
  if truthy query then (troveOutcome, [.trove])
  else
    let fs := osf_filters provider_id subjects date_published_gte
    match resp1 with
    | .ok j => (.ok j, [.std fs])
    | .httpError st =>
      if st = 400 then
        if 1 < fs.length then
          let sfs :=
            if truthy provider_id then
              [("filter[provider]".data, sanitize_api_queries (provider_id.getD []) 50)]
            else []
          match resp2 with
          | .ok j2 =>
            (.ok ⟨some (setKey (j2.meta.getD []) "search_note".data
                (osf_search_note (provider_id.getD []))), j2.payload⟩,
             [.std fs, .std sfs])
          | _ => (.error .badRequest400, [.std fs, .std sfs])
        else (.error .badRequest400, [.std fs])
      else (.error (.reraisedHttp st), [.std fs])
    | .requestFailure => (.error .requestFailed, [.std fs])

theorem replaceCharWith_self (a : Char) (s : Str) : replaceCharWith a [a] s = s := by
  induction s with
  | nil => rfl
  | cons c t ih =>
    by_cases h : c = a <;> simp [replaceCharWith, h, ih]

theorem mem_replaceCharWith {x a : Char} {rep s : Str}
    (h : x ∈ replaceCharWith a rep s) : x ∈ rep ∨ x ∈ s := by
  induction s with
  | nil => simp [replaceCharWith] at h
  | cons c t ih =>
    rw [replaceCharWith] at h
    rcases List.mem_append.mp h with h1 | h1
    · split at h1
      · exact Or.inl h1
      · simp only [List.mem_singleton] at h1
        exact Or.inr (h1 ▸ List.mem_cons_self c t)
    · rcases ih h1 with h2 | h2
      · exact Or.inl h2
      · exact Or.inr (List.mem_cons_of_mem _ h2)

theorem replaceCharWith_of_not_mem {a : Char} {s : Str} (rep : Str) (h : a ∉ s) :
    replaceCharWith a rep s = s := by
  induction s with
  | nil => rfl
  | cons c t ih =>
    have hca : ¬ c = a := fun hc => h (hc ▸ List.mem_cons_self c t)
    have ht : a ∉ t := fun hm => h (List.mem_cons_of_mem _ hm)
    simp [replaceCharWith, hca, ih ht]

theorem not_mem_replaceCharWith {a : Char} {rep : Str} (h : a ∉ rep) (s : Str) :
    a ∉ replaceCharWith a rep s := by
  induction s with
  | nil => simp [replaceCharWith]
  | cons c t ih =>
    rw [replaceCharWith]
    intro hm
    rcases List.mem_append.mp hm with h1 | h1
    · split at h1
      · exact h h1
      · next hc =>
        simp only [List.mem_singleton] at h1
        exact hc h1.symm
    · exact ih h1

theorem length_replaceCharWith_le {rep : Str} (hr : rep.length ≤ 1) (a : Char)
    (s : Str) : (replaceCharWith a rep s).length ≤ s.length := by
  induction s with
  | nil => simp [replaceCharWith]
  | cons c t ih =>
    rw [replaceCharWith, List.length_append, List.length_cons]
    split
    · omega
    · simp only [List.length_singleton]
      omega

theorem length_replaceCharWith_single (a b : Char) (s : Str) :
    (replaceCharWith a [b] s).length = s.length := by
  induction s with
  | nil => rfl
  | cons c t ih =>
    rw [replaceCharWith, List.length_append, List.length_cons]
    split
    · simp only [List.length_singleton]
      omega
    · simp only [List.length_singleton]
      omega

theorem leadMatch_iff {p s : Str} : leadMatch p s = true ↔ p <+: s := by
  induction p generalizing s with
  | nil => simp [leadMatch]
  | cons a ps ih =>
    cases s with
    | nil => simp [leadMatch]
    | cons c cs =>
      rw [leadMatch]
      by_cases h : a = c
      · simp [h, ih, List.cons_prefix_cons]
      · simp [h, List.cons_prefix_cons]

theorem leadMatch_length {p s : Str} (h : leadMatch p s = true) :
    p.length ≤ s.length :=
  (leadMatch_iff.mp h).length_le

theorem mem_replaceSeqAux {x : Char} {pat rep : Str} :
    ∀ {f : Nat} {s : Str}, x ∈ replaceSeqAux pat rep f s → x ∈ rep ∨ x ∈ s := by
  intro f
  induction f with
  | zero =>
    intro s h
    cases s with
    | nil => simp [replaceSeqAux] at h
    | cons c t => exact Or.inr (by simpa [replaceSeqAux] using h)
  | succ f ih =>
    intro s h
    cases s with
    | nil => simp [replaceSeqAux] at h
    | cons c t =>
      rw [replaceSeqAux] at h
      split at h
      · rcases List.mem_append.mp h with h1 | h1
        · exact Or.inl h1
        · rcases ih h1 with h2 | h2
          · exact Or.inl h2
          · exact Or.inr (List.drop_subset _ _ h2)
      · rcases List.mem_cons.mp h with h1 | h1
        · exact Or.inr (h1 ▸ List.mem_cons_self c t)
        · rcases ih h1 with h2 | h2
          · exact Or.inl h2
          · exact Or.inr (List.mem_cons_of_mem _ h2)

theorem length_replaceSeqAux_le {pat rep : Str} (hlen : rep.length ≤ pat.length) :
    ∀ (f : Nat) (s : Str), (replaceSeqAux pat rep f s).length ≤ s.length := by
  intro f
  induction f with
  | zero =>
    intro s
    cases s <;> simp [replaceSeqAux]
  | succ f ih =>
    intro s
    cases s with
    | nil => simp [replaceSeqAux]
    | cons c t =>
      rw [replaceSeqAux]
      split
      · next hm =>
        have h1 := leadMatch_length hm
        have h2 := ih (List.drop pat.length (c :: t))
        rw [List.length_append]
        simp only [List.length_drop, List.length_cons] at h1 h2 ⊢
        omega
      · have h2 := ih t
        simp only [List.length_cons]
        omega

theorem replaceSeqAux_no_occurrence {pat rep : Str} :
    ∀ (f : Nat) {s : Str}, ¬ pat <:+: s → replaceSeqAux pat rep f s = s := by
  intro f
  induction f with
  | zero =>
    intro s _
    cases s <;> rfl
  | succ f ih =>
    intro s h
    cases s with
    | nil => rfl
    | cons c t =>
      rw [replaceSeqAux]
      split
      · next hm => exact absurd (leadMatch_iff.mp hm).isInfix h
      · exact congrArg (c :: ·) (ih fun hi => h (List.infix_cons hi))

theorem mem_of_infix_mem {pat s : Str} (h : pat <:+: s) {x : Char} (hx : x ∈ pat) :
    x ∈ s := h.subset hx

theorem mem_replaceSeq {x : Char} {pat rep s : Str}
    (h : x ∈ replaceSeq pat rep s) : x ∈ rep ∨ x ∈ s :=
  mem_replaceSeqAux h

theorem length_replaceSeq_le {pat rep : Str} (hlen : rep.length ≤ pat.length)
    (s : Str) : (replaceSeq pat rep s).length ≤ s.length :=
  length_replaceSeqAux_le hlen _ _

theorem replaceSeq_no_occurrence {pat rep s : Str} (h : ¬ pat <:+: s) :
    replaceSeq pat rep s = s :=
  replaceSeqAux_no_occurrence _ h

theorem mem_removeChars {x : Char} {chars : Str} :
    ∀ {s : Str}, x ∈ removeChars chars s → x ∈ s := by
  induction chars with
  | nil => intro s h; exact h
  | cons c cs ih =>
    intro s h
    have h1 := ih (s := replaceCharWith c [] s) h
    rcases mem_replaceCharWith h1 with h2 | h2
    · simp at h2
    · exact h2

theorem length_removeChars_le (chars : Str) :
    ∀ (s : Str), (removeChars chars s).length ≤ s.length := by
  induction chars with
  | nil => intro s; exact le_refl _
  | cons c cs ih =>
    intro s
    exact le_trans (ih (replaceCharWith c [] s))
      (length_replaceCharWith_le (by simp) c s)

theorem not_mem_removeChars {a : Char} {chars : Str} (h : a ∈ chars) :
    ∀ (s : Str), a ∉ removeChars chars s := by
  induction chars with
  | nil => simp at h
  | cons c cs ih =>
    intro s
    rcases List.mem_cons.mp h with h1 | h1
    · subst h1
      intro hc
      have h2 : a ∈ replaceCharWith a [] s := mem_removeChars hc
      exact not_mem_replaceCharWith (by simp) s h2
    · exact ih h1 _

theorem removeChars_eq_self {chars : Str} :
    ∀ {s : Str}, (∀ c ∈ chars, c ∉ s) → removeChars chars s = s := by
  induction chars with
  | nil => intro s _; rfl
  | cons c cs ih =>
    intro s h
    have h1 : replaceCharWith c [] s = s :=
      replaceCharWith_of_not_mem [] (h c (List.mem_cons_self c cs))
    show removeChars cs (replaceCharWith c [] s) = s
    rw [h1]
    exact ih fun d hd => h d (List.mem_cons_of_mem _ hd)

theorem mem_dedupSpaces {x : Char} : ∀ {s : Str}, x ∈ dedupSpaces s → x ∈ s
  | [], h => by simp [dedupSpaces] at h
  | [c], h => by simpa [dedupSpaces] using h
  | a :: b :: t, h => by
    rw [dedupSpaces] at h
    split at h
    · exact List.mem_cons_of_mem _ (mem_dedupSpaces h)
    · rcases List.mem_cons.mp h with h1 | h1
      · exact h1 ▸ List.mem_cons_self _ _
      · exact List.mem_cons_of_mem _ (mem_dedupSpaces h1)

theorem length_dedupSpaces_le : ∀ (s : Str), (dedupSpaces s).length ≤ s.length
  | [] => by simp [dedupSpaces]
  | [c] => by simp [dedupSpaces]
  | a :: b :: t => by
    rw [dedupSpaces]
    have h := length_dedupSpaces_le (b :: t)
    split
    · exact le_trans h (by simp)
    · simp only [List.length_cons] at h ⊢
      omega

theorem dedupSpaces_head : ∀ (b : Char) (t : Str), (dedupSpaces (b :: t)).head? = some b
  | _, [] => rfl
  | b, c :: t => by
    rw [dedupSpaces]
    split
    · next h => rw [dedupSpaces_head c t, h.2, h.1]
    · rfl

theorem dedupSpaces_noAdj : ∀ (s : Str), NoAdjSpaces (dedupSpaces s)
  | [] => List.chain'_nil
  | [c] => by simp [dedupSpaces, NoAdjSpaces]
  | a :: b :: t => by
    rw [dedupSpaces]
    split
    · exact dedupSpaces_noAdj (b :: t)
    · next h =>
      refine List.chain'_cons'.mpr ⟨?_, dedupSpaces_noAdj (b :: t)⟩
      intro y hy
      rw [dedupSpaces_head b t] at hy
      simp only [Option.mem_some_iff] at hy
      exact hy ▸ h

theorem dedupSpaces_eq_self : ∀ {s : Str}, NoAdjSpaces s → dedupSpaces s = s
  | [], _ => rfl
  | [_], _ => rfl
  | a :: b :: t, h => by
    have h1 := List.chain'_cons.mp h
    rw [dedupSpaces, if_neg h1.1, dedupSpaces_eq_self h1.2]

theorem length_normWS_le (s : Str) : (normWS s).length ≤ s.length := by
  have h := length_dedupSpaces_le (s.map fun c => if isPyWS c then ' ' else c)
  rwa [List.length_map] at h

theorem mem_normWS {x : Char} {s : Str} (h : x ∈ normWS s) : x = ' ' ∨ x ∈ s := by
  have h1 := mem_dedupSpaces h
  rcases List.mem_map.mp h1 with ⟨c, hc, hcx⟩
  by_cases hw : isPyWS c
  · left
    rw [← hcx]
    simp [hw]
  · right
    rw [← hcx]
    simpa [hw] using hc

theorem ws_mem_normWS {x : Char} {s : Str} (h : x ∈ normWS s)
    (hw : isPyWS x = true) : x = ' ' := by
  have h1 := mem_dedupSpaces h
  rcases List.mem_map.mp h1 with ⟨c, hc, hcx⟩
  subst hcx
  by_cases hwc : isPyWS c = true
  · simp [hwc]
  · rw [if_neg hwc] at hw
    exact absurd hw hwc

theorem normWS_noAdj (s : Str) : NoAdjSpaces (normWS s) :=
  dedupSpaces_noAdj _

theorem normWS_eq_self {s : Str} (hws : ∀ c ∈ s, isPyWS c → c = ' ')
    (hadj : NoAdjSpaces s) : normWS s = s := by
  have hmap : (s.map fun c => if isPyWS c then ' ' else c) = s := by
    have h := List.map_congr_left (l := s)
      (f := fun c => if isPyWS c then ' ' else c) (g := id) ?_
    · rw [h, List.map_id]
    · intro c hc
      by_cases hw : isPyWS c
      · simp [hw, hws c hc hw]
      · simp [hw]
  rw [normWS, hmap, dedupSpaces_eq_self hadj]

theorem mem_stripWS {x : Char} {s : Str} (h : x ∈ stripWS s) : x ∈ s := by
  rw [stripWS] at h
  exact (List.dropWhile_suffix _).sublist.subset
    (( List.rdropWhile_prefix _ _).sublist.subset h)

theorem length_stripWS_le (s : Str) : (stripWS s).length ≤ s.length := by
  rw [stripWS]
  exact le_trans ( List.rdropWhile_prefix _ _).sublist.length_le
    (List.dropWhile_suffix _).sublist.length_le

theorem stripWS_contiguous (s : Str) : stripWS s <:+: s :=
  (( List.rdropWhile_prefix _ _).isInfix).trans ((List.dropWhile_suffix _).isInfix)

theorem stripWS_noAdj {s : Str} (h : NoAdjSpaces s) : NoAdjSpaces (stripWS s) :=
  h.infix (stripWS_contiguous s)

theorem stripWS_idem (s : Str) : stripWS (stripWS s) = stripWS s := by
  conv_lhs => rw [stripWS]
  have h1 : List.dropWhile (fun c => isPyWS c) (stripWS s) = stripWS s := by
    rw [List.dropWhile_eq_self_iff]
    intro hl
    have hpre : stripWS s <+: List.dropWhile (fun c => isPyWS c) s :=
      List.rdropWhile_prefix _ _
    have hl2 : 0 < (List.dropWhile (fun c => isPyWS c) s).length :=
      lt_of_lt_of_le hl hpre.sublist.length_le
    have hg : (stripWS s).get ⟨0, hl⟩ =
        (List.dropWhile (fun c => isPyWS c) s).get ⟨0, hl2⟩ := by
      simp only [List.get_eq_getElem]
      exact hpre.getElem hl
    rw [hg]
    exact List.dropWhile_get_zero_not _ _ hl2
  rw [h1, stripWS, List.rdropWhile_idempotent]

theorem mem_pyTake {x : Char} {k : Int} {s : Str} (h : x ∈ pyTake k s) : x ∈ s := by
  rw [pyTake] at h
  split at h <;> exact List.take_subset _ _ h

theorem length_pyTake_of_nonneg {k : Int} (hk : 0 ≤ k) (s : Str) :
    (pyTake k s).length = min k.toNat s.length := by
  rw [pyTake, if_neg (not_lt.mpr hk), List.length_take]

theorem mem_of_mem_replaceChar_nilrep {x a : Char} {s : Str}
    (h : x ∈ replaceCharWith a [] s) : x ∈ s := by
  rcases mem_replaceCharWith h with h1 | h1
  · simp at h1
  · exact h1

theorem mem_of_mem_replaceChar_rep {x a : Char} {rep s : Str}
    (h : x ∈ replaceCharWith a rep s) (hx : x ∉ rep) : x ∈ s := by
  rcases mem_replaceCharWith h with h1 | h1
  · exact absurd h1 hx
  · exact h1

theorem quoteStage_eq (t : Str) : quoteStage t = replaceSeq quoteArtifact [apos] t := by
  rw [quoteStage, replaceCharWith_self, replaceCharWith_self]

theorem mem_quoteStage {x : Char} {t : Str} (h : x ∈ quoteStage t) :
    x = apos ∨ x ∈ t := by
  rw [quoteStage_eq] at h
  rcases mem_replaceSeq h with h1 | h1
  · left
    simpa using h1
  · right
    exact h1

theorem quoteStage_no_occurrence {t : Str} (hna : ¬ quoteArtifact <:+: t) :
    quoteStage t = t := by
  rw [quoteStage_eq]
  exact replaceSeq_no_occurrence hna

theorem mem_spaceStage {x : Char} {t : Str} (h : x ∈ spaceStage t) :
    x = ' ' ∨ x ∈ t := by
  unfold spaceStage at h
  rcases mem_replaceCharWith h with h1 | h1
  · left
    simpa using h1
  rcases mem_replaceCharWith h1 with h2 | h2
  · left
    simpa using h2
  rcases mem_replaceCharWith h2 with h3 | h3
  · left
    simpa using h3
  rcases mem_replaceCharWith h3 with h4 | h4
  · left
    simpa using h4
  rcases mem_replaceSeq h4 with h5 | h5
  · left
    simpa using h5
  · right
    exact h5

theorem spaceStage_eq_self {t : Str} (h160 : Char.ofNat 160 ∉ t)
    (h10 : Char.ofNat 10 ∉ t) (h13 : Char.ofNat 13 ∉ t) (h9 : Char.ofNat 9 ∉ t)
    (hnb : ¬ nbspEntity <:+: t) : spaceStage t = t := by
  unfold spaceStage
  rw [replaceSeq_no_occurrence hnb, replaceCharWith_of_not_mem _ h160,
    replaceCharWith_of_not_mem _ h10, replaceCharWith_of_not_mem _ h13,
    replaceCharWith_of_not_mem _ h9]

theorem mem_collapseStage {x : Char} {t : Str} (h : x ∈ collapseStage t) :
    x = ' ' ∨ x ∈ t :=
  mem_normWS (mem_stripWS h)

theorem length_collapseStage_le (t : Str) : (collapseStage t).length ≤ t.length :=
  le_trans (length_stripWS_le _) (length_normWS_le t)

theorem ws_mem_collapseStage {x : Char} {t : Str} (h : x ∈ collapseStage t)
    (hw : isPyWS x = true) : x = ' ' :=
  ws_mem_normWS (mem_stripWS h) hw

theorem collapseStage_noAdj (t : Str) : NoAdjSpaces (collapseStage t) :=
  stripWS_noAdj (normWS_noAdj t)

theorem collapseStage_fix (t : Str) :
    collapseStage (collapseStage t) = collapseStage t := by
  conv_lhs => rw [collapseStage]
  rw [normWS_eq_self (fun c hc hw => ws_mem_collapseStage hc hw) (collapseStage_noAdj t),
    collapseStage, stripWS_idem]

theorem mem_truncStage {x : Char} {N : Int} {t : Str} (h : x ∈ truncStage N t) :
    x = '.' ∨ x ∈ t := by
  rw [truncStage] at h
  split at h
  · rcases List.mem_append.mp h with h1 | h1
    · right
      exact mem_pyTake h1
    · left
      simpa using h1
  · right
    exact h

theorem length_truncStage_le {N : Int} (hN : 3 ≤ N) (t : Str) :
    ((truncStage N t).length : Int) ≤ N := by
  rw [truncStage]
  split
  · next hgt =>
    rw [List.length_append, length_pyTake_of_nonneg (by omega)]
    simp only [List.length_cons, List.length_nil]
    omega
  · next hng => omega

theorem truncStage_eq_self {N : Int} {t : Str} (h : ¬ ((t.length : Int) > N)) :
    truncStage N t = t := by
  rw [truncStage, if_neg h]

theorem mem_punctStage {x : Char} {t : Str} (h : x ∈ punctStage t) :
    x = ' ' ∨ x = '-' ∨ x = ',' ∨ x ∈ t := by
  unfold punctStage at h
  have h1 := mem_of_mem_replaceChar_nilrep h
  have h2 := mem_of_mem_replaceChar_nilrep h1
  have h3 := mem_of_mem_replaceChar_nilrep h2
  have h4 := mem_of_mem_replaceChar_nilrep h3
  rcases mem_replaceCharWith h4 with h5 | h5
  · right
    right
    left
    simpa using h5
  rcases mem_replaceCharWith h5 with h6 | h6
  · rcases List.mem_cons.mp h6 with h7 | h7
    · left
      exact h7
    · right
      left
      simpa using h7
  · right
    right
    right
    exact mem_removeChars h6

theorem colon_not_mem_punctStage (t : Str) : ':' ∉ punctStage t := by
  intro h
  unfold punctStage at h
  have h1 := mem_of_mem_replaceChar_nilrep h
  have h2 := mem_of_mem_replaceChar_nilrep h1
  have h3 := mem_of_mem_replaceChar_nilrep h2
  have h4 := mem_of_mem_replaceChar_nilrep h3
  have h5 := mem_of_mem_replaceChar_rep h4 (by decide)
  exact not_mem_replaceCharWith (by decide) _ h5

theorem semicolon_not_mem_punctStage (t : Str) : ';' ∉ punctStage t := by
  intro h
  unfold punctStage at h
  have h1 := mem_of_mem_replaceChar_nilrep h
  have h2 := mem_of_mem_replaceChar_nilrep h1
  have h3 := mem_of_mem_replaceChar_nilrep h2
  have h4 := mem_of_mem_replaceChar_nilrep h3
  exact not_mem_replaceCharWith (by decide) _ h4

theorem qmark_not_mem_punctStage (t : Str) : '?' ∉ punctStage t := by
  intro h
  unfold punctStage at h
  have h1 := mem_of_mem_replaceChar_nilrep h
  have h2 := mem_of_mem_replaceChar_nilrep h1
  have h3 := mem_of_mem_replaceChar_nilrep h2
  exact not_mem_replaceCharWith (by decide) _ h3

theorem bang_not_mem_punctStage (t : Str) : '!' ∉ punctStage t := by
  intro h
  unfold punctStage at h
  have h1 := mem_of_mem_replaceChar_nilrep h
  have h2 := mem_of_mem_replaceChar_nilrep h1
  exact not_mem_replaceCharWith (by decide) _ h2

theorem hash_not_mem_punctStage (t : Str) : '#' ∉ punctStage t := by
  intro h
  unfold punctStage at h
  have h1 := mem_of_mem_replaceChar_nilrep h
  exact not_mem_replaceCharWith (by decide) _ h1

theorem pct_not_mem_punctStage (t : Str) : '%' ∉ punctStage t := by
  intro h
  unfold punctStage at h
  exact not_mem_replaceCharWith (by decide) _ h

theorem blacklist_not_mem_punctStage {b : Char} (hb : b ∈ problematic_chars)
    (hb1 : b ≠ ' ') (hb2 : b ≠ '-') (hb3 : b ≠ ',') (t : Str) :
    b ∉ punctStage t := by
  intro h
  unfold punctStage at h
  have h1 := mem_of_mem_replaceChar_nilrep h
  have h2 := mem_of_mem_replaceChar_nilrep h1
  have h3 := mem_of_mem_replaceChar_nilrep h2
  have h4 := mem_of_mem_replaceChar_nilrep h3
  have h5 := mem_of_mem_replaceChar_rep h4 (by simp [hb3])
  have h6 := mem_of_mem_replaceChar_rep h5 (by simp [hb1, hb2])
  exact not_mem_removeChars hb _ h6

theorem length_punctStage_le {t : Str} (hc : ':' ∉ t) :
    (punctStage t).length ≤ t.length := by
  have hc2 : ':' ∉ removeChars problematic_chars t := fun h => hc (mem_removeChars h)
  unfold punctStage
  rw [replaceCharWith_of_not_mem _ hc2]
  refine le_trans (length_replaceCharWith_le (by simp) _ _) ?_
  refine le_trans (length_replaceCharWith_le (by simp) _ _) ?_
  refine le_trans (length_replaceCharWith_le (by simp) _ _) ?_
  refine le_trans (length_replaceCharWith_le (by simp) _ _) ?_
  rw [length_replaceCharWith_single]
  exact length_removeChars_le _ _

theorem punctStage_eq_self {t : Str} (hbl : ∀ c ∈ problematic_chars, c ∉ t)
    (hcol : ':' ∉ t) (hsem : ';' ∉ t) (hq : '?' ∉ t) (hex : '!' ∉ t)
    (hhash : '#' ∉ t) (hpct : '%' ∉ t) : punctStage t = t := by
  unfold punctStage
  rw [removeChars_eq_self hbl, replaceCharWith_of_not_mem _ hcol,
    replaceCharWith_of_not_mem _ hsem, replaceCharWith_of_not_mem _ hq,
    replaceCharWith_of_not_mem _ hex, replaceCharWith_of_not_mem _ hhash,
    replaceCharWith_of_not_mem _ hpct]

/-- C1 counterexample: the length contract fails as stated.  The input
`"a"*197 + ":::"` contains no blacklisted character, yet its sanitized form is
longer than `max_length = 200`, because the colon replacement `": " -> " -"`
runs after truncation and grows the string.  Separately, for `max_length = 0`
the appended `"..."` alone exceeds the limit. -/
theorem sanitize_length_contract_cex :
    (∀ c ∈ List.replicate 197 'a' ++ [':', ':', ':'], c ∉ problematic_chars) ∧
    ¬ (sanitize_api_queries (List.replicate 197 'a' ++ [':', ':', ':']) 200).length ≤ 200 ∧
    (∀ c ∈ List.replicate 4 'a', c ∉ problematic_chars) ∧
    ¬ (sanitize_api_queries (List.replicate 4 'a') 0).length ≤ 0 :=
  ⟨by decide, by decide, by decide, by decide⟩

/-- C1 (amended): for every input containing no blacklisted character and no
colon, and every `max_length ≥ 3`, the sanitized length is at most
`max_length`; and `sanitize("a"*250, max_length=200)` has length exactly 200
and ends with `"..."`. -/
theorem sanitize_length_contract :
    (∀ (x : Str) (N : Int), (∀ c ∈ x, c ∉ problematic_chars) → ':' ∉ x → 3 ≤ N →
      ((sanitize_api_queries x N).length : Int) ≤ N) ∧
    (sanitize_api_queries (List.replicate 250 'a') 200).length = 200 ∧
    (sanitize_api_queries (List.replicate 250 'a') 200).drop 197 = ['.', '.', '.'] := by
  refine ⟨?_, by decide, by decide⟩
  intro x N hb hc hN
  rw [sanitize_api_queries]
  split
  · next hx =>
    rw [hx]
    simp only [List.length_nil, Int.ofNat_zero]
    omega
  · set u := collapseStage (spaceStage (quoteStage x)) with hu
    have hcu : ':' ∉ u := by
      intro h
      rcases mem_collapseStage h with h1 | h1
      · exact absurd h1 (by decide)
      · rcases mem_spaceStage h1 with h2 | h2
        · exact absurd h2 (by decide)
        · rcases mem_quoteStage h2 with h3 | h3
          · exact absurd h3 (by decide)
          · exact hc h3
    have hct : ':' ∉ truncStage N u := by
      intro h
      rcases mem_truncStage h with h1 | h1
      · exact absurd h1 (by decide)
      · exact hcu h1
    have h1 := length_truncStage_le hN u
    have h2 := length_punctStage_le hct
    have h3 := length_collapseStage_le (punctStage (truncStage N u))
    omega

/-- C1 witness: the amended length bound applied at a concrete input. -/
theorem sanitize_length_contract_witness :
    ((sanitize_api_queries "abc".data 200).length : Int) ≤ 200 :=
  sanitize_length_contract.1 "abc".data 200 (by decide) (by decide) (by decide)

/-- C7 counterexample: the spec's expected output `"a -b,cdefg h"` is wrong;
bracket removal leaves no space behind. -/
theorem sanitize_char_removal_cex :
    sanitize_api_queries "a:b;c?d!e#f%g[h]".data 200 ≠ "a -b,cdefg h".data := by
  decide

/-- C7 (amended): `sanitize("a:b;c?d!e#f%g[h]")` returns exactly
`"a -b,cdefgh"`: the colon becomes space-hyphen, the semicolon becomes a
comma, and `? ! # % [ ]` are removed entirely with no space left behind. -/
theorem sanitize_char_removal :
    sanitize_api_queries "a:b;c?d!e#f%g[h]".data 200 = "a -b,cdefgh".data := by
  decide

/-- C8 counterexample: idempotence fails on a printable-ASCII input within the
length limit.  Line 26 of the sanitizer replaces the literal fifteen-character
pattern `quoteArtifact` by an apostrophe; sanitizing the input below yields
exactly that pattern, which a second pass then rewrites. -/
theorem sanitize_idempotent_cex :
    (∀ c ∈ ([',', ' ', dq] ++ quoteArtifact ++
        [dq, ')', '.', 'r', 'e', 'p', 'l', 'a', 'c', 'e', '('] : Str),
      32 ≤ c.toNat ∧ c.toNat ≤ 126) ∧
    (sanitize_api_queries ([',', ' ', dq] ++ quoteArtifact ++
        [dq, ')', '.', 'r', 'e', 'p', 'l', 'a', 'c', 'e', '(']) 200).length ≤ 200 ∧
    sanitize_api_queries (sanitize_api_queries ([',', ' ', dq] ++ quoteArtifact ++
        [dq, ')', '.', 'r', 'e', 'p', 'l', 'a', 'c', 'e', '(']) 200) 200 ≠
      sanitize_api_queries ([',', ' ', dq] ++ quoteArtifact ++
        [dq, ')', '.', 'r', 'e', 'p', 'l', 'a', 'c', 'e', '(']) 200 :=
  ⟨by decide, by decide, by decide⟩

/-- C8 (amended): sanitize is idempotent on printable-ASCII inputs whose
sanitized form stays within the `max_length` limit, provided the sanitized
form does not contain the fifteen-character artifact pattern that line 26
replaces by an apostrophe. -/
theorem sanitize_idempotent_amended (x : Str)
    (hascii : ∀ c ∈ x, 32 ≤ c.toNat ∧ c.toNat ≤ 126)
    (hlen : (sanitize_api_queries x 200).length ≤ 200)
    (hart : ¬ quoteArtifact <:+: sanitize_api_queries x 200) :
    sanitize_api_queries (sanitize_api_queries x 200) 200 =
      sanitize_api_queries x 200 := by
  by_cases hx : x = []
  · subst hx
    simp [sanitize_api_queries]
  · have hyform : sanitize_api_queries x 200 =
        collapseStage (punctStage (truncStage 200 (collapseStage (spaceStage (quoteStage x))))) := by
      rw [sanitize_api_queries, if_neg hx]
    set y := sanitize_api_queries x 200 with hy
    have hws : ∀ c ∈ y, isPyWS c = true → c = ' ' := by
      intro c hc hw
      rw [hyform] at hc
      exact ws_mem_collapseStage hc hw
    have hMemPunct : ∀ c ∈ y, c = ' ' ∨
        c ∈ punctStage (truncStage 200 (collapseStage (spaceStage (quoteStage x)))) := by
      intro c hc
      rw [hyform] at hc
      exact mem_collapseStage hc
    have hsem : ';' ∉ y := by
      intro h
      rcases hMemPunct _ h with h1 | h1
      · exact absurd h1 (by decide)
      · exact semicolon_not_mem_punctStage _ h1
    have hcol : ':' ∉ y := by
      intro h
      rcases hMemPunct _ h with h1 | h1
      · exact absurd h1 (by decide)
      · exact colon_not_mem_punctStage _ h1
    have hq : '?' ∉ y := by
      intro h
      rcases hMemPunct _ h with h1 | h1
      · exact absurd h1 (by decide)
      · exact qmark_not_mem_punctStage _ h1
    have hex : '!' ∉ y := by
      intro h
      rcases hMemPunct _ h with h1 | h1
      · exact absurd h1 (by decide)
      · exact bang_not_mem_punctStage _ h1
    have hhash : '#' ∉ y := by
      intro h
      rcases hMemPunct _ h with h1 | h1
      · exact absurd h1 (by decide)
      · exact hash_not_mem_punctStage _ h1
    have hpct : '%' ∉ y := by
      intro h
      rcases hMemPunct _ h with h1 | h1
      · exact absurd h1 (by decide)
      · exact pct_not_mem_punctStage _ h1
    have hbl : ∀ c ∈ problematic_chars, c ∉ y := by
      intro c hcp h
      rcases hMemPunct _ h with h1 | h1
      · subst h1
        exact absurd hcp (by decide)
      · have hb1 : c ≠ ' ' := by
          intro he
          subst he
          exact absurd hcp (by decide)
        have hb2 : c ≠ '-' := by
          intro he
          subst he
          exact absurd hcp (by decide)
        have hb3 : c ≠ ',' := by
          intro he
          subst he
          exact absurd hcp (by decide)
        exact blacklist_not_mem_punctStage hcp hb1 hb2 hb3 _ h1
    have h160 : Char.ofNat 160 ∉ y := by
      intro h
      exact absurd (hws _ h (by decide)) (by decide)
    have h10 : Char.ofNat 10 ∉ y := by
      intro h
      exact absurd (hws _ h (by decide)) (by decide)
    have h13 : Char.ofNat 13 ∉ y := by
      intro h
      exact absurd (hws _ h (by decide)) (by decide)
    have h9 : Char.ofNat 9 ∉ y := by
      intro h
      exact absurd (hws _ h (by decide)) (by decide)
    have hnb : ¬ nbspEntity <:+: y := by
      intro h
      exact hsem (mem_of_infix_mem h (by decide))
    have hcy : collapseStage y = y := by
      rw [hyform]
      exact collapseStage_fix _
    by_cases hy0 : y = []
    · rw [hy0]
      simp [sanitize_api_queries]
    · rw [sanitize_api_queries, if_neg hy0, quoteStage_no_occurrence hart,
        spaceStage_eq_self h160 h10 h13 h9 hnb, hcy,
        truncStage_eq_self (by omega),
        punctStage_eq_self hbl hcol hsem hq hex hhash hpct]
      exact hcy

/-- C8 witness: idempotence applied at a concrete input. -/
theorem sanitize_idempotent_witness :
    sanitize_api_queries (sanitize_api_queries "hello world".data 200) 200 =
      sanitize_api_queries "hello world".data 200 :=
  sanitize_idempotent_amended "hello world".data (by decide) (by decide)
    (fun h => absurd h.length_le (by decide))

theorem intercalate_pair (sep x y : Str) :
    List.intercalate sep [x, y] = x ++ sep ++ y := by
  simp [List.intercalate, List.intersperse]

theorem pyIsDigit_of_isNdDigit {c : Char} (h : isNdDigit c = true) :
    pyIsDigit c = true := by
  simp [pyIsDigit, h]

theorem pyIsDigit_eq_isNdDigit_of_ascii {c : Char} (h : c.toNat ≤ 127) :
    pyIsDigit c = isNdDigit c := by
  have hcom : isCompatDigit c = false := by
    simp only [isCompatDigit, Bool.or_eq_false_iff, decide_eq_false_iff_not]
    omega
  simp [pyIsDigit, hcom]

theorem isOpenAlexIdShape_iff {s : Str} :
    isOpenAlexIdShape s = true ↔ matchesWPyDigits s := by
  cases s with
  | nil =>
    simp only [isOpenAlexIdShape, matchesWPyDigits]
    simp
  | cons c rest =>
    simp only [isOpenAlexIdShape, matchesWPyDigits, Bool.and_eq_true,
      decide_eq_true_eq, Bool.not_eq_true', List.all_eq_true]
    constructor
    · rintro ⟨⟨hc, hne⟩, hall⟩
      refine ⟨rest, by rw [hc], ?_, hall⟩
      intro hnil
      rw [hnil] at hne
      simp at hne
    · rintro ⟨ds, heq, hne, hall⟩
      injection heq with h1 h2
      subst h1
      subst h2
      refine ⟨⟨rfl, ?_⟩, hall⟩
      cases rest with
      | nil => exact absurd rfl hne
      | cons a l => rfl

theorem isArxivIdShape_iff {s : Str} :
    isArxivIdShape s = true ↔ specArxivShape s := by
  rw [isArxivIdShape, specArxivShape]
  simp [Bool.and_eq_true, Bool.or_eq_true, decide_eq_true_eq]

/-- C3 counterexample: the routing equivalence fails as stated.  Python
`str.isdigit` also accepts compatibility digits, so the identifier
`W\u00b2` (superscript two) routes to OpenAlex although it does not match
`^W\d+$` (`\d` is category Nd only). -/
theorem classify_W_superscript_cex :
    classify ['W', Char.ofNat 178] = Route.openalex ∧
    ¬ matchesWDigits ['W', Char.ofNat 178] := by
  refine ⟨by decide, ?_⟩
  rintro ⟨ds, heq, hne, hall⟩
  injection heq with h1 h2
  subst h2
  exact absurd (hall (Char.ofNat 178) (by simp)) (by decide)

/-- C3 (amended): for every identifier made of ASCII characters the routing
is exactly as described (`^W\d+$` to OpenAlex, else a dot together with a
`v` or a 4-character head segment to arXiv, otherwise OSF), and every
identifier matching `^W\d+$` routes to OpenAlex unrestrictedly; the three
examples hold as stated.  Without the ASCII restriction only the
containment holds, since `str.isdigit` accepts more than `\d`. -/
theorem classify_routing :
    (∀ s : Str, (∀ c ∈ s, c.toNat ≤ 127) →
      ((classify s = .openalex ↔ matchesWDigits s) ∧
       (classify s = .arxiv ↔ ¬ matchesWDigits s ∧ specArxivShape s) ∧
       (classify s = .osf ↔ ¬ matchesWDigits s ∧ ¬ specArxivShape s))) ∧
    (∀ s : Str, matchesWDigits s → classify s = .openalex) ∧
    classify "W4385245566".data = .openalex ∧
    classify "2407.06405v1".data = .arxiv ∧
    classify "2stpg".data = .osf := by
  refine ⟨?_, ?_, by decide, by decide, by decide⟩
  · intro s hascii
    have hiff : matchesWPyDigits s ↔ matchesWDigits s := by
      constructor
      · rintro ⟨ds, rfl, hne, hall⟩
        refine ⟨ds, rfl, hne, fun c hc => ?_⟩
        have ha := hascii c (List.mem_cons_of_mem _ hc)
        have hd := hall c hc
        rwa [pyIsDigit_eq_isNdDigit_of_ascii ha] at hd
      · rintro ⟨ds, rfl, hne, hall⟩
        exact ⟨ds, rfl, hne, fun c hc => pyIsDigit_of_isNdDigit (hall c hc)⟩
    have hoa : isOpenAlexIdShape s = true ↔ matchesWDigits s :=
      isOpenAlexIdShape_iff.trans hiff
    have har := isArxivIdShape_iff (s := s)
    by_cases h1 : isOpenAlexIdShape s = true
    · have hm : matchesWDigits s := hoa.mp h1
      simp [classify, h1, hm]
    · by_cases h2 : isArxivIdShape s = true
      · have hm : ¬ matchesWDigits s := fun h => h1 (hoa.mpr h)
        have ha : specArxivShape s := har.mp h2
        simp [classify, h1, h2, hm, ha]
      · have hm : ¬ matchesWDigits s := fun h => h1 (hoa.mpr h)
        have ha : ¬ specArxivShape s := fun h => h2 (har.mpr h)
        simp [classify, h1, h2, hm, ha]
  · rintro s ⟨ds, rfl, hne, hall⟩
    have h1 : isOpenAlexIdShape ('W' :: ds) = true :=
      isOpenAlexIdShape_iff.mpr
        ⟨ds, rfl, hne, fun c hc => pyIsDigit_of_isNdDigit (hall c hc)⟩
    rw [classify, if_pos h1]

/-- C3 witness: the ASCII equivalence applied at a concrete identifier. -/
theorem classify_routing_witness :
    classify "W123".data = Route.openalex ↔ matchesWDigits "W123".data :=
  (classify_routing.1 "W123".data (by decide)).1

/-- C10: the arXiv query construction agrees with the spec's description for
all four optional fields, with the `cat:cs.AI` example and the
`all:X AND au:Y` combination. -/
theorem arxiv_query_construction :
    (∀ query category author title : Option Str,
      arxiv_search_query query category author title =
        arxivQuerySpec query category author title) ∧
    arxiv_search_query none (some "cs.AI".data) none none = "cat:cs.AI".data ∧
    (∀ X Y : Str, X ≠ [] → Y ≠ [] →
      arxiv_search_query (some X) none (some Y) none =
        "all:".data ++ sanitize_api_queries X 200 ++ " AND ".data ++
          "au:".data ++ sanitize_api_queries Y 100) := by
  refine ⟨?_, by decide, ?_⟩
  · intro q c a t
    have hl : optQueryPart "all:".data 200 q ++ optQueryPart "cat:".data 50 c ++
        optQueryPart "au:".data 100 a ++ optQueryPart "ti:".data 200 t =
        List.filterMap (fun f : Str × Int × Option Str =>
          match f.2.2 with
          | some v => if v.isEmpty then none
              else some (f.1 ++ sanitize_api_queries v f.2.1)
          | none => none)
          [("all:".data, 200, q), ("cat:".data, 50, c),
           ("au:".data, 100, a), ("ti:".data, 200, t)] := by
      cases q <;> cases c <;> cases a <;> cases t <;>
        (simp only [optQueryPart, List.filterMap_cons, List.filterMap_nil]
         first
         | (split_ifs <;> rfl)
         | rfl)
    simp only [arxiv_search_query, arxivQuerySpec]
    rw [hl]
  · intro X Y hX hY
    have hX2 : X.isEmpty = false := by simpa using hX
    have hY2 : Y.isEmpty = false := by simpa using hY
    simp only [arxiv_search_query, optQueryPart, hX2, hY2, Bool.false_eq_true,
      if_false]
    simp [List.intercalate, List.intersperse, List.append_assoc]

/-- C10 witness: the `all: AND au:` combination at concrete inputs. -/
theorem arxiv_query_construction_witness :
    arxiv_search_query (some "X".data) none (some "Y".data) none =
      "all:".data ++ sanitize_api_queries "X".data 200 ++ " AND ".data ++
        "au:".data ++ sanitize_api_queries "Y".data 100 :=
  arxiv_query_construction.2.2 "X".data "Y".data (by decide) (by decide)

/-- C5: the OpenAlex `filter=` construction drops the `title.search:` sub-key
whenever an earlier field (author) already populated the filter: with
`author="X", title="Y"` the built filter is
`authors.author_name.search:X,Y`, not
`authors.author_name.search:X,title.search:Y`; with `title` alone the sub-key
is present.  This contradicts both the spec and the function's own
else-branch. -/
theorem openalex_title_segment_missing_key :
    (fetch_openalex_filters none (some "X".data) (some "Y".data)
        none none none none).filter =
      some "authors.author_name.search:X,Y".data ∧
    (fetch_openalex_filters none none (some "Y".data)
        none none none none).filter =
      some "title.search:Y".data ∧
    (fetch_openalex_filters none (some "X".data) (some "Y".data)
        none none none none).filter ≠
      some "authors.author_name.search:X,title.search:Y".data :=
  ⟨by decide, by decide, by decide⟩

theorem filter_orderedInsert_pos (k : Int) (a : Int × Str) (l : List (Int × Str)) :
    (List.orderedInsert posLe a l).filter (fun q => decide (q.1 = k)) =
      if a.1 = k then a :: l.filter (fun q => decide (q.1 = k))
      else l.filter (fun q => decide (q.1 = k)) := by
  induction l with
  | nil =>
    by_cases h : a.1 = k <;> simp [List.orderedInsert, h]
  | cons b t ih =>
    rw [List.orderedInsert]
    split
    · by_cases hak : a.1 = k <;> by_cases hbk : b.1 = k <;>
        simp [List.filter_cons, hak, hbk]
    · next hab =>
      have hab2 : ¬ a.1 ≤ b.1 := hab
      by_cases hbk : b.1 = k
      · by_cases hak : a.1 = k
        · exact absurd (le_of_eq (hak.trans hbk.symm)) hab2
        · simp [List.filter_cons, hbk, hak, ih]
      · by_cases hak : a.1 = k <;> simp [List.filter_cons, hbk, hak, ih]

theorem filter_insertionSort_pos (k : Int) (l : List (Int × Str)) :
    (List.insertionSort posLe l).filter (fun q => decide (q.1 = k)) =
      l.filter (fun q => decide (q.1 = k)) := by
  induction l with
  | nil => rfl
  | cons a t ih =>
    rw [List.insertionSort, filter_orderedInsert_pos, ih, List.filter_cons]
    by_cases h : a.1 = k <;> simp [h]

/-- C4: abstract reconstruction is the reference algorithm: flatten to one
`(position, word)` pair per listed occurrence, stable-sort ascending by
position (the sorted pair list is sorted, is a permutation of the flattened
list, and preserves the relative order of pairs with equal positions), and
join the words with single spaces; the five-word example reconstructs to
exactly `"Attention is all you need"`. -/
theorem reconstruct_abstract_reference :
    (∀ idx : InvIndex,
      reconstruct_abstract idx =
        List.intercalate [' ']
          ((List.insertionSort posLe (flattenIndex idx)).map Prod.snd) ∧
      List.Sorted posLe (List.insertionSort posLe (flattenIndex idx)) ∧
      List.Perm (List.insertionSort posLe (flattenIndex idx)) (flattenIndex idx) ∧
      (∀ k : Int,
        (List.insertionSort posLe (flattenIndex idx)).filter (fun q => decide (q.1 = k)) =
          (flattenIndex idx).filter (fun q => decide (q.1 = k)))) ∧
    reconstruct_abstract
        [("Attention".data, .ints [0]), ("is".data, .ints [1]),
         ("all".data, .ints [2]), ("you".data, .ints [3]),
         ("need".data, .ints [4])] =
      "Attention is all you need".data :=
  ⟨fun idx =>
    ⟨rfl, List.sorted_insertionSort posLe _, List.perm_insertionSort posLe _,
     fun k => filter_insertionSort_pos k _⟩,
   by decide⟩

/-- C9: reconstruction of an index all of whose position values are malformed
(non-list) yields the empty string: the `isinstance` guard skips such entries,
so no exception is even raised. -/
theorem reconstruct_abstract_malformed (idx : InvIndex)
    (h : ∀ e ∈ idx, e.2 = PosVal.malformed) : reconstruct_abstract idx = [] := by
  have hf : flattenIndex idx = [] := by
    induction idx with
    | nil => rfl
    | cons e t ih =>
      obtain ⟨w, v⟩ := e
      have hv : v = PosVal.malformed := h _ (List.mem_cons_self _ _)
      subst hv
      rw [flattenIndex]
      exact ih fun e he => h e (List.mem_cons_of_mem _ he)
  rw [reconstruct_abstract, hf]
  rfl

/-- C9 witness: a concrete all-malformed index reconstructs to `""`. -/
theorem reconstruct_abstract_malformed_witness :
    reconstruct_abstract [("a".data, PosVal.malformed)] = [] :=
  reconstruct_abstract_malformed _ (by decide)

/-- C2 counterexample: `get_paper_metadata` has no exception handling: an
adapter-raised `ValueError` (for instance a network failure wrapped by
`fetch_single_openalex_paper_metadata`) propagates to the caller unchanged,
so not every public operation returns a value. -/
theorem get_paper_metadata_propagates_cex :
    get_paper_metadata (α := Nat) "W4385245566".data
        (Except.error PyExc.valueError) (Except.ok 0) (Except.ok 0) =
      Except.error PyExc.valueError := rfl

/-- C2 (amended): `search_preprints` returns an error value for an unknown
provider without consulting any adapter, and `get_paper_by_id` returns a
value whenever the adapters fail only with `ValueError`; but
`get_paper_metadata` returns the classified adapter outcome unchanged, so
adapter exceptions propagate through it (and through `search_preprints` for
upstream failures). -/
theorem dispatcher_error_policy :
    (∀ (p : Str) (osfIds : List Str) (osfCall arxivCall openalexCall : Except PyExc Nat),
      p ∉ get_all_provider_ids osfIds → p ≠ [] →
      search_preprints (some p) osfIds osfCall arxivCall openalexCall =
        Except.ok SearchOut.providerNotFoundError) ∧
    (∀ (paper_id : Str) (oaF arxF : Except PyExc Unit) (osfF : Except PyExc OsfMetaRes)
        (dlOA dlArx dlOsf osfErrDict veDict : Nat),
      (oaF = Except.ok () ∨ oaF = Except.error PyExc.valueError) →
      (arxF = Except.ok () ∨ arxF = Except.error PyExc.valueError) →
      (osfF = Except.error PyExc.valueError ∨ ∃ r, osfF = Except.ok r) →
      ∃ v, get_paper_by_id paper_id oaF arxF osfF dlOA dlArx dlOsf osfErrDict veDict =
        Except.ok v) ∧
    (∀ (preprint_id : Str) (oaF arxF osfF : Except PyExc Nat),
      get_paper_metadata preprint_id oaF arxF osfF = oaF ∨
      get_paper_metadata preprint_id oaF arxF osfF = arxF ∨
      get_paper_metadata preprint_id oaF arxF osfF = osfF) := by
  refine ⟨?_, ?_, ?_⟩
  · intro p osfIds o a x hnot hne
    have h1 : truthy (some p) = true := by
      cases p with
      | nil => exact absurd rfl hne
      | cons c t => rfl
    rw [search_preprints, if_pos ⟨h1, by simpa using hnot⟩]
  · intro paper_id oaF arxF osfF dlOA dlArx dlOsf osfErrDict veDict hoa harx hosf
    by_cases h1 : isOpenAlexIdShape paper_id = true
    · rcases hoa with rfl | rfl
      · exact ⟨dlOA, by simp [get_paper_by_id, h1, Except.map]⟩
      · exact ⟨veDict, by simp [get_paper_by_id, h1, Except.map]⟩
    · by_cases h2 : isArxivIdShape paper_id = true
      · rcases harx with rfl | rfl
        · exact ⟨dlArx, by simp [get_paper_by_id, h1, h2, Except.map]⟩
        · exact ⟨veDict, by simp [get_paper_by_id, h1, h2, Except.map]⟩
      · rcases hosf with rfl | ⟨r, rfl⟩
        · exact ⟨veDict, by simp [get_paper_by_id, h1, h2]⟩
        · cases r
          · exact ⟨dlOsf, by simp [get_paper_by_id, h1, h2]⟩
          · exact ⟨osfErrDict, by simp [get_paper_by_id, h1, h2]⟩
  · intro preprint_id oaF arxF osfF
    rw [get_paper_metadata]
    split
    · exact Or.inl rfl
    · split
      · exact Or.inr (Or.inl rfl)
      · exact Or.inr (Or.inr rfl)

/-- C2 witness: the amended policy at concrete inputs. -/
theorem dispatcher_error_policy_witness :
    search_preprints (some "nope".data) [] (Except.ok 0) (Except.ok 0) (Except.ok 0) =
        Except.ok SearchOut.providerNotFoundError ∧
    (∃ v, get_paper_by_id "2stpg".data (Except.ok ()) (Except.ok ())
        (Except.error PyExc.valueError) 1 2 3 4 5 = Except.ok v) ∧
    (get_paper_metadata "2stpg".data (Except.ok 6) (Except.ok 7) (Except.ok 8) = Except.ok 6 ∨
     get_paper_metadata "2stpg".data (Except.ok 6) (Except.ok 7) (Except.ok 8) = Except.ok 7 ∨
     get_paper_metadata "2stpg".data (Except.ok 6) (Except.ok 7) (Except.ok 8) = Except.ok 8) :=
  ⟨dispatcher_error_policy.1 "nope".data [] _ _ _ (by decide) (by decide),
   dispatcher_error_policy.2.1 "2stpg".data _ _ _ 1 2 3 4 5
     (Or.inl rfl) (Or.inl rfl) (Or.inl rfl),
   dispatcher_error_policy.2.2 "2stpg".data _ _ _⟩

theorem lookupKey_setKey (m : List (Str × Str)) (k v : Str) :
    lookupKey (setKey m k v) k = some v := by
  induction m with
  | nil => simp [setKey, lookupKey]
  | cons e t ih =>
    obtain ⟨k0, v0⟩ := e
    rw [setKey]
    by_cases h : k0 = k
    · rw [if_pos h, lookupKey, if_pos rfl]
    · rw [if_neg h, lookupKey, if_neg h, ih]

/-- C6: on a 400 from the standard OSF filter endpoint with more than one
filter applied, exactly one retry is issued carrying only the provider
filter; on retry success the returned body's `meta.search_note` is set to the
non-empty explanatory note; on retry failure, or with at most one filter, the
original 400 surfaces as a `ValueError` and, in the single-filter case, no
retry is issued. -/
theorem osf_400_fallback (provider_id subjects dpg : Option Str)
    (trove : Except OsfErr OsfJson) (resp2 : HttpOutcome OsfJson) :
    (1 < (osf_filters provider_id subjects dpg).length →
      (fetch_osf_preprints provider_id subjects dpg none trove
          (.httpError 400) resp2).2 =
        [.std (osf_filters provider_id subjects dpg),
         .std (osf_filters provider_id none none)] ∧
      (∀ j2, resp2 = .ok j2 →
        (fetch_osf_preprints provider_id subjects dpg none trove
            (.httpError 400) resp2).1 =
          .ok ⟨some (setKey (j2.meta.getD []) "search_note".data
              (osf_search_note (provider_id.getD []))), j2.payload⟩ ∧
        lookupKey (setKey (j2.meta.getD []) "search_note".data
            (osf_search_note (provider_id.getD []))) "search_note".data =
          some (osf_search_note (provider_id.getD [])) ∧
        osf_search_note (provider_id.getD []) ≠ []) ∧
      ((∀ j2, resp2 ≠ .ok j2) →
        (fetch_osf_preprints provider_id subjects dpg none trove
            (.httpError 400) resp2).1 = .error .badRequest400)) ∧
    ((osf_filters provider_id subjects dpg).length ≤ 1 →
      (fetch_osf_preprints provider_id subjects dpg none trove
          (.httpError 400) resp2).1 = .error .badRequest400 ∧
      (fetch_osf_preprints provider_id subjects dpg none trove
          (.httpError 400) resp2).2 =
        [.std (osf_filters provider_id subjects dpg)]) := by
  have hfs : osf_filters provider_id none none =
      (if truthy provider_id then
        [("filter[provider]".data, sanitize_api_queries (provider_id.getD []) 50)]
       else []) := by
    simp [osf_filters, truthy]
  constructor
  · intro hgt
    cases resp2 with
    | ok j2 =>
      have hred : fetch_osf_preprints provider_id subjects dpg none trove
          (.httpError 400) (.ok j2) =
          (if 1 < (osf_filters provider_id subjects dpg).length then
            (.ok ⟨some (setKey (j2.meta.getD []) "search_note".data
                (osf_search_note (provider_id.getD []))), j2.payload⟩,
             [.std (osf_filters provider_id subjects dpg),
              .std (if truthy provider_id = true then
                [("filter[provider]".data,
                  sanitize_api_queries (provider_id.getD []) 50)]
               else [])])
           else (.error .badRequest400,
             [.std (osf_filters provider_id subjects dpg)])) := rfl
      rw [hred, if_pos hgt]
      refine ⟨by rw [hfs], fun j hj => ?_, fun hne => absurd rfl (hne j2)⟩
      injection hj with h
      subst h
      exact ⟨rfl, lookupKey_setKey _ _ _, by simp [osf_search_note]⟩
    | httpError st =>
      have hred : fetch_osf_preprints provider_id subjects dpg none trove
          (.httpError 400) (.httpError st) =
          (if 1 < (osf_filters provider_id subjects dpg).length then
            (.error .badRequest400,
             [.std (osf_filters provider_id subjects dpg),
              .std (if truthy provider_id = true then
                [("filter[provider]".data,
                  sanitize_api_queries (provider_id.getD []) 50)]
               else [])])
           else (.error .badRequest400,
             [.std (osf_filters provider_id subjects dpg)])) := rfl
      rw [hred, if_pos hgt]
      exact ⟨by rw [hfs], fun j hj => absurd hj (by simp), fun _ => rfl⟩
    | requestFailure =>
      have hred : fetch_osf_preprints provider_id subjects dpg none trove
          (.httpError 400) .requestFailure =
          (if 1 < (osf_filters provider_id subjects dpg).length then
            (.error .badRequest400,
             [.std (osf_filters provider_id subjects dpg),
              .std (if truthy provider_id = true then
                [("filter[provider]".data,
                  sanitize_api_queries (provider_id.getD []) 50)]
               else [])])
           else (.error .badRequest400,
             [.std (osf_filters provider_id subjects dpg)])) := rfl
      rw [hred, if_pos hgt]
      exact ⟨by rw [hfs], fun j hj => absurd hj (by simp), fun _ => rfl⟩
  · intro hle
    cases resp2 with
    | ok j2 =>
      have hred : fetch_osf_preprints provider_id subjects dpg none trove
          (.httpError 400) (.ok j2) =
          (if 1 < (osf_filters provider_id subjects dpg).length then
            (.ok ⟨some (setKey (j2.meta.getD []) "search_note".data
                (osf_search_note (provider_id.getD []))), j2.payload⟩,
             [.std (osf_filters provider_id subjects dpg),
              .std (if truthy provider_id = true then
                [("filter[provider]".data,
                  sanitize_api_queries (provider_id.getD []) 50)]
               else [])])
           else (.error .badRequest400,
             [.std (osf_filters provider_id subjects dpg)])) := rfl
      rw [hred, if_neg (by omega)]
      exact ⟨rfl, rfl⟩
    | httpError st =>
      have hred : fetch_osf_preprints provider_id subjects dpg none trove
          (.httpError 400) (.httpError st) =
          (if 1 < (osf_filters provider_id subjects dpg).length then
            (.error .badRequest400,
             [.std (osf_filters provider_id subjects dpg),
              .std (if truthy provider_id = true then
                [("filter[provider]".data,
                  sanitize_api_queries (provider_id.getD []) 50)]
               else [])])
           else (.error .badRequest400,
             [.std (osf_filters provider_id subjects dpg)])) := rfl
      rw [hred, if_neg (by omega)]
      exact ⟨rfl, rfl⟩
    | requestFailure =>
      have hred : fetch_osf_preprints provider_id subjects dpg none trove
          (.httpError 400) .requestFailure =
          (if 1 < (osf_filters provider_id subjects dpg).length then
            (.error .badRequest400,
             [.std (osf_filters provider_id subjects dpg),
              .std (if truthy provider_id = true then
                [("filter[provider]".data,
                  sanitize_api_queries (provider_id.getD []) 50)]
               else [])])
           else (.error .badRequest400,
             [.std (osf_filters provider_id subjects dpg)])) := rfl
      rw [hred, if_neg (by omega)]
      exact ⟨rfl, rfl⟩

/-- C6 witness: the fallback at a concrete two-filter input with a concrete
400 then success. -/
theorem osf_400_fallback_witness :
    (fetch_osf_preprints (some "psyarxiv".data) (some "psychology".data) none none
        (Except.ok ⟨none, 0⟩) (.httpError 400) (.ok ⟨none, 7⟩)).2 =
      [.std (osf_filters (some "psyarxiv".data) (some "psychology".data) none),
       .std (osf_filters (some "psyarxiv".data) none none)] :=
  ((osf_400_fallback (some "psyarxiv".data) (some "psychology".data) none
      (Except.ok ⟨none, 0⟩) (.ok ⟨none, 7⟩)).1 (by decide)).1

end Paperclip
